import Mathlib

/-!
Shallow embedding of the global-chat WebSocket core of the repository
(`src/globalchat/main.py`, data model from `src/database/models.py`), and
proofs of the specification's claims about it.

The embedding models:
* `ConnectionManager` (connection registry): a Python list of live
  WebSocket handles with `connect` / `disconnect` / `broadcast`;
* admission in `websocket_chat_endpoint` (token check, JWT decode,
  user lookup, close reasons);
* the receive-loop dispatch of `message` / `edit` / `delete` events over
  a message store (`MessageDocument` records), producing a trace of
  store effects and broadcast payloads.

Python's `await connection.send_text(...)` may raise; this is modelled by a
predicate `ok : Conn → Bool` saying whether the send to a given connection
succeeds during a broadcast pass.  Database operations that may raise
(e.g. `new_msg.insert()`) are modelled by a success flag.
-/

namespace GlobalChat

/-- A live WebSocket connection handle.  Python compares handles by object
identity; we model a handle as an opaque id. -/
structure Conn where
  cid : Nat
deriving DecidableEq, Repr

/-- `ConnectionManager.connect`: appends the handle to
`self.active_connections` (`main.py` line 40). -/
def connect (s : List Conn) (w : Conn) : List Conn :=
  s ++ [w]

/-- `ConnectionManager.disconnect` (`main.py` lines 43-47): removes the
handle from `active_connections` if present.  Python's `list.remove`
removes the first occurrence, which is `List.erase`. -/
def disconnect (s : List Conn) (w : Conn) : List Conn :=
  if w ∈ s then s.erase w else s

/-- The send loop inside `ConnectionManager.broadcast` (`main.py` lines
53-58): iterates over the connections, attempting `send_text` on each one
inside a `try`; a failure is caught and the connection is collected into
`connections_to_remove`.  Returns `(attempted sends in order, failed
connections in order)`. -/
def broadcastAttempts (ok : Conn → Bool) : List Conn → List Conn × List Conn
  | [] => ([], [])
  | c :: rest =>
      let r := broadcastAttempts ok rest
      (c :: r.1, if ok c then r.2 else c :: r.2)

/-- `ConnectionManager.broadcast` (`main.py` lines 49-61): attempts a send
to every connection in `active_connections`, then calls `disconnect` on
each connection whose send failed.  Returns `(attempted sends, new
active_connections)`. -/
def broadcast (ok : Conn → Bool) (s : List Conn) : List Conn × List Conn :=
  let r := broadcastAttempts ok s
  (r.1, r.2.foldl disconnect s)

/-- Close reasons issued by `websocket_chat_endpoint` before registration
(`main.py` lines 82-100); all use close code 4003 with a distinct reason
string. -/
inductive CloseReason where
  /-- `"Authentication required"` (line 83) -/
  | authRequired
  /-- `"Invalid token"` (lines 90, 93) -/
  | invalidToken
  /-- `"User not found"` (line 99) -/
  | userNotFound
deriving DecidableEq, Repr

/-- The close reason string passed to `websocket.close(code=4003, ...)`. -/
def CloseReason.reasonString : CloseReason → String
  | .authRequired => "Authentication required"
  | .invalidToken => "Invalid token"
  | .userNotFound => "User not found"

/-- The fields of `UserDocument` (`src/database/models.py` lines 22-48)
that admission reads. -/
structure UserDoc where
  email : String
  displayName : Option String
  username : Option String
  disabled : Bool
deriving DecidableEq, Repr

/-- `UserDocument.find_one(UserDocument.email == email)`: first user
document whose email matches. -/
def findUser (db : List UserDoc) (email : String) : Option UserDoc :=
  db.find? (fun u => u.email == email)

/-- Python string truthiness for an `Optional[str]`: `None` and `""` are
falsy. -/
def pyStr (a : Option String) : Option String :=
  match a with
  | some s => if s = "" then none else some s
  | none => none

/-- `user.display_name or user.username or user.email.split("@")[0]`
(`main.py` line 104). -/
def resolvedName (u : UserDoc) : String :=
  match pyStr u.displayName with
  | some s => s
  | none =>
      match pyStr u.username with
      | some s => s
      | none => (u.email.splitOn "@").headD ""

/-- Result of the `jose` JWT decode on a token string: `none` models a
raised `JWTError`; `some sub` models a successful decode whose payload has
`sub` claim `sub` (`payload.get("sub")` is `none` when absent). -/
abbrev JwtDecode := String → Option (Option String)

/-- Outcome of the admission phase of `websocket_chat_endpoint`
(`main.py` lines 79-107). -/
inductive AdmissionResult where
  /-- `websocket.close(code=4003, reason=...)` and return: never
  registered. -/
  | rejected (reason : CloseReason)
  /-- Validated identity: `current_user_email`, `current_user_name`;
  followed by `manager.connect(websocket)`. -/
  | admitted (senderId : String) (senderName : String)
deriving DecidableEq, Repr

/-- Admission in `websocket_chat_endpoint` (`main.py` lines 79-107):
`token` is the optional `token` query parameter (`if not token` treats
both an absent and an empty token as missing); `decode` models
`jwt.decode` + `payload.get("sub")`; `db` is the `users` collection.
Note: the code never reads `user.disabled`. -/
def admission (decode : JwtDecode) (db : List UserDoc) (token : Option String) :
    AdmissionResult :=
  match pyStr token with
  | none => .rejected .authRequired
  | some t =>
      match decode t with
      | none => .rejected .invalidToken
      | some none => .rejected .invalidToken
      | some (some email) =>
          match findUser db email with
          | none => .rejected .userNotFound
          | some user => .admitted user.email (resolvedName user)

/-- Registry effect of the admission phase: a rejected connection is never
passed to `manager.connect`; an admitted one is registered
(`main.py` line 107). -/
def admissionRegistry (res : AdmissionResult) (s : List Conn) (w : Conn) :
    List Conn :=
  match res with
  | .rejected _ => s
  | .admitted _ _ => connect s w

/-- Message ids: `MessageDocument.id` values assigned by the store on
insert (`PydanticObjectId`), modelled as opaque naturals. -/
abbrev MsgId := Nat

/-- A `MessageDocument` record (`src/database/models.py` lines 67-84).
`timestamp` abstracts the `now_ist()` datetime as a tick. -/
structure Msg where
  senderId : String
  senderName : String
  content : String
  roomId : String
  messageType : String
  timestamp : Nat
  isDeleted : Bool
  replyToId : Option String
  replyToUsername : Option String
  replyToContent : Option String
deriving DecidableEq, Repr

/-- The `messages` collection: stored records keyed by id. -/
abbrev Store := List (MsgId × Msg)

/-- `MessageDocument.get(id)`: lookup by id. -/
def storeGet (st : Store) (i : MsgId) : Option Msg :=
  (st.find? (fun p => p.1 == i)).map Prod.snd

/-- `new_msg.insert()`: appends the record under a store-assigned id. -/
def storeInsert (st : Store) (i : MsgId) (m : Msg) : Store :=
  st ++ [(i, m)]

/-- `msg.save()` after mutating a fetched document: writes the document
back under its id. -/
def storeSave (st : Store) (i : MsgId) (m : Msg) : Store :=
  st.map (fun p => if p.1 == i then (i, m) else p)

/-- Payloads handed to `manager.broadcast` by the dispatch cases
(`main.py` lines 147-157, 174-178, 194-197); each is `json.dumps`ed on the
wire. -/
inductive OutEvent where
  /-- `{"type": "message", "id", "username", "sender_id", "message",
  "timestamp", "reply_to_id", "reply_to_username", "reply_to_content"}` -/
  | message (id : MsgId) (username senderId content : String)
      (timestamp : Nat) (replyToId replyToUsername replyToContent :
        Option String)
  /-- `{"type": "edit", "id", "message"}` -/
  | edit (id : MsgId) (content : String)
  /-- `{"type": "delete", "id"}` -/
  | delete (id : MsgId)
deriving DecidableEq, Repr

/-- An effect performed by one pass of the dispatch body, in program
order: store writes and broadcast calls. -/
inductive Eff where
  /-- `await new_msg.insert()` -/
  | insertMsg (i : MsgId) (m : Msg)
  /-- `await msg.save()` -/
  | saveMsg (i : MsgId) (m : Msg)
  /-- `await manager.broadcast(json.dumps(...))` -/
  | broadcastEv (e : OutEvent)
deriving DecidableEq, Repr

/-- Replays a dispatch trace's store writes onto a store. -/
def applyEff (st : Store) : Eff → Store
  | .insertMsg i m => storeInsert st i m
  | .saveMsg i m => storeSave st i m
  | .broadcastEv _ => st

/-- The store after running a trace of effects. -/
def runEffs (st : Store) (es : List Eff) : Store :=
  es.foldl applyEff st

/-- The broadcast payloads of a trace, in order. -/
def broadcastsOf (es : List Eff) : List OutEvent :=
  es.filterMap fun e =>
    match e with
    | .broadcastEv o => some o
    | _ => none

/-- A decoded client JSON frame: the fields `websocket_chat_endpoint`
reads via `message_data.get(...)` (`main.py` lines 116-184), plus the
identity-like fields a client may supply, which the code never reads
(line 118: metadata is forced from the authenticated user). -/
structure ClientFrame where
  ftype : Option String
  message : Option String
  msgId : Option String
  replyToId : Option String
  replyToUsername : Option String
  replyToContent : Option String
  claimedUsername : Option String
  claimedSenderId : Option String
deriving DecidableEq, Repr

/-- A received text frame: either `json.loads` raises
`JSONDecodeError`, or it yields a decoded frame. -/
inductive RawFrame where
  | undecodable
  | decoded (f : ClientFrame)
deriving DecidableEq, Repr

/-- `PydanticObjectId(msg_id)`: parsing the wire id string; `none` models
a raised parse error (caught by the loop's generic handler). -/
abbrev ParseId := String → Option MsgId

/-- One pass of the dispatch body of the receive loop (`main.py` lines
114-202), for a frame received on an admitted connection.  `senderId` and
`senderName` are the admission-time identity (lines 119-120); `now` is
`now_ist()`; `freshId` the id the store would assign on insert;
`insertOk = false` models `new_msg.insert()` raising (the exception is
caught at line 201, aborting the pass).  Returns the effect trace of the
pass; every failure path yields the empty trace (silent no-op). -/
def dispatch (parseId : ParseId) (senderId senderName : String)
    (now : Nat) (freshId : MsgId) (insertOk : Bool) (st : Store) :
    RawFrame → List Eff
  | .undecodable => []
  | .decoded f =>
      let actionType := f.ftype.getD "message"
      if actionType = "message" then
        let content := f.message.getD ""
        if content ≠ "" then
          if insertOk then
            let newMsg : Msg :=
              { senderId := senderId, senderName := senderName,
                content := content, roomId := "global",
                messageType := "text", timestamp := now,
                isDeleted := false, replyToId := f.replyToId,
                replyToUsername := f.replyToUsername,
                replyToContent := f.replyToContent }
            [.insertMsg freshId newMsg,
             .broadcastEv (.message freshId senderName senderId content now
               f.replyToId f.replyToUsername f.replyToContent)]
          else []
        else []
      else if actionType = "edit" then
        match pyStr f.msgId, pyStr f.message with
        | some rawId, some newContent =>
            match parseId rawId with
            | none => []
            | some i =>
                match storeGet st i with
                | some msg =>
                    if msg.senderId = senderId ∧ msg.isDeleted = false then
                      [.saveMsg i { msg with content := newContent },
                       .broadcastEv (.edit i newContent)]
                    else []
                | none => []
        | _, _ => []
      else if actionType = "delete" then
        match pyStr f.msgId with
        | some rawId =>
            match parseId rawId with
            | none => []
            | some i =>
                match storeGet st i with
                | some msg =>
                    if msg.senderId = senderId then
                      [.saveMsg i { msg with isDeleted := true },
                       .broadcastEv (.delete i)]
                    else []
                | none => []
        | none => []
      else []

/-- What `await websocket.receive_text()` yields on one loop iteration:
a text frame, a `WebSocketDisconnect`, or another transport exception. -/
inductive InEvent where
  | frame (r : RawFrame)
  | disconnected
  | transportError
deriving DecidableEq, Repr

/-- Outcome of one iteration of the `while True` receive loop:
either the loop continues with the effects of the dispatch pass, or the
loop exits (the connection transitions to Closed). -/
inductive StepResult where
  | continueLoop (effs : List Eff)
  | closed
deriving DecidableEq, Repr

/-- One iteration of the receive loop (`main.py` lines 110-208): a frame
is dispatched (all exceptions inside the loop body are caught at lines
199-202, so dispatch never exits the loop); `WebSocketDisconnect` or any
other transport exception exits the loop into the handlers at lines
204-208. -/
def handleIncoming (parseId : ParseId) (senderId senderName : String)
    (now freshId : Nat) (insertOk : Bool) (st : Store) :
    InEvent → StepResult
  | .frame r => .continueLoop
      (dispatch parseId senderId senderName now freshId insertOk st r)
  | .disconnected => .closed
  | .transportError => .closed

/-- Registry effect of one loop iteration outcome: both exit paths call
`manager.disconnect(websocket)` (`main.py` lines 204-208); a continuing
iteration leaves registration to the broadcasts it performs. -/
def stepRegistry (res : StepResult) (s : List Conn) (w : Conn) :
    List Conn :=
  match res with
  | .continueLoop _ => s
  | .closed => disconnect s w

/-- Registry states reachable through the `ConnectionManager` operations:
`connect` is only ever called on a freshly accepted WebSocket handle
(`main.py` line 107, once per endpoint invocation), so the registered
handle is always new to the registry. -/
inductive ReachableReg : List Conn → Prop where
  | empty : ReachableReg []
  | register {s w} (hs : ReachableReg s) (hw : w ∉ s) :
      ReachableReg (connect s w)
  | unregister {s} (w) (hs : ReachableReg s) : ReachableReg (disconnect s w)
  | prune {s} (ok) (hs : ReachableReg s) : ReachableReg ((broadcast ok s).2)

/-- A concrete `users` collection holding a single user whose `disabled`
flag is set. -/
def dbWithDisabledUser : List UserDoc :=
  [{ email := "dis@example.com", displayName := some "Dis",
     username := none, disabled := true }]

/-- A concrete JWT decode in which the token `"tok"` is valid and resolves
to the disabled user's email. -/
def decodeTok : JwtDecode :=
  fun t => if t = "tok" then some (some "dis@example.com") else none

/-- A stored message used in concrete witnesses. -/
def msgA : Msg :=
  { senderId := "alice@x", senderName := "Alice", content := "hello",
    roomId := "global", messageType := "text", timestamp := 5,
    isDeleted := false, replyToId := none, replyToUsername := none,
    replyToContent := none }

/-- A concrete edit frame targeting message id string `"0"`. -/
def editFrame : ClientFrame :=
  { ftype := some "edit", message := some "hi there", msgId := some "0",
    replyToId := none, replyToUsername := none, replyToContent := none,
    claimedUsername := none, claimedSenderId := none }

/-- A concrete id parser accepting only the wire string `"0"`. -/
def parseZero : ParseId := fun s => if s = "0" then some 0 else none

/-- A concrete new-message frame (the `type` key is absent, exercising the
`.get("type", "message")` default). -/
def msgFrame : ClientFrame :=
  { ftype := none, message := some "hi", msgId := none,
    replyToId := none, replyToUsername := none, replyToContent := none,
    claimedUsername := none, claimedSenderId := none }

/-- A concrete delete frame targeting message id string `"0"`. -/
def deleteFrame : ClientFrame :=
  { ftype := some "delete", message := none, msgId := some "0",
    replyToId := none, replyToUsername := none, replyToContent := none,
    claimedUsername := none, claimedSenderId := none }

/-- `msgA` after a first soft delete. -/
def msgD : Msg := { msgA with isDeleted := true }

/-- A stored reply to `msgA`, carrying a snapshot of its content. -/
def msgB : Msg :=
  { senderId := "bob@x", senderName := "Bob", content := "re: hello",
    roomId := "global", messageType := "text", timestamp := 6,
    isDeleted := false, replyToId := some "0",
    replyToUsername := some "Alice", replyToContent := some "hello" }

/-- A concrete frame with an unknown type discriminator. -/
def pingFrame : ClientFrame :=
  { ftype := some "ping", message := some "hi", msgId := some "0",
    replyToId := none, replyToUsername := none, replyToContent := none,
    claimedUsername := none, claimedSenderId := none }


lemma broadcastAttempts_fst (ok : Conn → Bool) (s : List Conn) :
    (broadcastAttempts ok s).1 = s := by
  induction s with
  | nil => rfl
  | cons c rest ih => simp [broadcastAttempts, ih]

lemma broadcast_fst (ok : Conn → Bool) (s : List Conn) :
    (broadcast ok s).1 = s := by
  simp only [broadcast]
  exact broadcastAttempts_fst ok s

lemma broadcastAttempts_snd (ok : Conn → Bool) (s : List Conn) :
    (broadcastAttempts ok s).2 = s.filter (fun c => !(ok c)) := by
  induction s with
  | nil => rfl
  | cons c rest ih =>
      by_cases h : ok c <;> simp [broadcastAttempts, ih, List.filter_cons, h]

lemma disconnect_of_not_mem {s : List Conn} {w : Conn} (h : w ∉ s) :
    disconnect s w = s := by
  simp [disconnect, h]

lemma mem_disconnect {s : List Conn} {w c : Conn} (h : c ∈ disconnect s w) :
    c ∈ s := by
  unfold disconnect at h
  split at h
  · exact List.mem_of_mem_erase h
  · exact h

lemma foldl_disconnect_not_mem {fs : List Conn} {s : List Conn} {c : Conn}
    (h : c ∉ fs) :
    c ∈ fs.foldl disconnect s ↔ c ∈ s := by
  induction fs generalizing s with
  | nil => simp
  | cons x fs ih =>
      simp only [List.mem_cons, not_or] at h
      simp only [List.foldl_cons]
      rw [ih h.2]
      unfold disconnect
      split
      · exact List.mem_erase_of_ne h.1
      · exact Iff.rfl

lemma foldl_disconnect_cons {fs : List Conn} {l : List Conn} {c : Conn}
    (h : c ∉ fs) :
    fs.foldl disconnect (c :: l) = c :: fs.foldl disconnect l := by
  induction fs generalizing l with
  | nil => rfl
  | cons x fs ih =>
      simp only [List.mem_cons, not_or] at h
      simp only [List.foldl_cons]
      have hx : disconnect (c :: l) x = c :: disconnect l x := by
        unfold disconnect
        by_cases hm : x ∈ l
        · simp only [List.mem_cons, hm, or_true, if_pos]
          rw [List.erase_cons_tail]
          simp only [beq_iff_eq]
          exact h.1
        · have : x ∉ c :: l := by
            simp only [List.mem_cons, not_or]
            exact ⟨fun hc => h.1 hc.symm, hm⟩
          simp [hm, this]
      rw [hx, ih h.2]

/-- After the pruning pass, the registry is exactly the connections whose
send succeeded, in their original order (assuming the registry holds no
duplicate handle, which is the case for every reachable registry state). -/
lemma broadcast_registry_eq_filter (ok : Conn → Bool) (s : List Conn)
    (h : s.Nodup) :
    (broadcast ok s).2 = s.filter (fun c => ok c) := by
  simp only [broadcast]
  rw [broadcastAttempts_snd]
  induction s with
  | nil => rfl
  | cons c rest ih =>
      have hnd := List.nodup_cons.mp h
      have hsub : ∀ x ∈ rest.filter (fun c => !(ok c)), x ∈ rest := by
        intro x hx
        exact List.mem_of_mem_filter hx
      have hcnot : c ∉ rest.filter (fun c => !(ok c)) := by
        intro hc
        exact hnd.1 (hsub c hc)
      by_cases hok : ok c
      · simp only [List.filter_cons, hok, Bool.not_true, if_neg,
          Bool.false_eq_true, not_false_eq_true, decide_True, if_pos]
        rw [foldl_disconnect_cons hcnot, ih hnd.2]
      · simp only [List.filter_cons, hok, Bool.not_false, if_pos,
          Bool.false_eq_true, if_neg, not_false_eq_true]
        simp only [List.foldl_cons]
        have hd : disconnect (c :: rest) c = rest := by
          unfold disconnect
          simp [List.erase_cons_head]
        rw [hd, ih hnd.2]

lemma disconnect_nodup {s : List Conn} (w : Conn) (h : s.Nodup) :
    (disconnect s w).Nodup := by
  unfold disconnect
  split
  · exact h.erase w
  · exact h

lemma foldl_disconnect_nodup (fs : List Conn) {s : List Conn}
    (h : s.Nodup) : (fs.foldl disconnect s).Nodup := by
  induction fs generalizing s with
  | nil => exact h
  | cons x fs ih => exact ih (disconnect_nodup x h)

/-- Every reachable registry state is duplicate-free. -/
lemma ReachableReg.nodup {s : List Conn} (h : ReachableReg s) : s.Nodup := by
  induction h with
  | empty => exact List.nodup_nil
  | register hs hw ih =>
      simp only [connect]
      simp [List.nodup_append, ih, hw]
  | unregister w hs ih => exact disconnect_nodup w ih
  | prune ok hs ih =>
      simp only [broadcast]
      exact foldl_disconnect_nodup _ ih

lemma storeGet_cons (p : MsgId × Msg) (st : Store) (j : MsgId) :
    storeGet (p :: st) j = if p.1 = j then some p.2 else storeGet st j := by
  unfold storeGet
  by_cases hq : p.1 = j
  · rw [List.find?_cons_of_pos _ (by simpa using hq), if_pos hq]
    rfl
  · rw [List.find?_cons_of_neg _ (by simpa using hq), if_neg hq]

lemma storeGet_save (st : Store) (i j : MsgId) (m : Msg) :
    storeGet (storeSave st i m) j =
      if j = i then (storeGet st i).map (fun _ => m) else storeGet st j := by
  induction st with
  | nil => simp [storeGet, storeSave]
  | cons p st ih =>
      have hsave : storeSave (p :: st) i m =
          (if p.1 == i then (i, m) else p) :: storeSave st i m := rfl
      rw [hsave]
      by_cases hp : p.1 = i
      · rw [if_pos (by simpa using hp)]
        by_cases hj : j = i
        · subst hj
          simp [storeGet_cons, hp, ih]
        · have hpj : ¬ p.1 = j := fun h => hj (hp ▸ h.symm)
          simp [storeGet_cons, hj, hpj, ih]
          intro h
          exact absurd h.symm hj
      · rw [if_neg (by simpa using hp)]
        by_cases hj : j = i
        · subst hj
          simp [storeGet_cons, hp, ih]
        · by_cases hpj : p.1 = j
          · simp [storeGet_cons, hj, hpj, ih]
          · simp [storeGet_cons, hj, hpj, ih]

lemma storeGet_insert_of_mem (st : Store) (i j : MsgId) (m m0 : Msg)
    (h : storeGet st j = some m0) :
    storeGet (storeInsert st i m) j = some m0 := by
  unfold storeGet storeInsert at *
  rw [List.find?_append]
  cases hf : st.find? (fun p => p.1 == j) with
  | none => simp [hf] at h
  | some q => simp [hf] at h ⊢; exact h

lemma runEffs_nil (st : Store) : runEffs st [] = st := rfl

lemma runEffs_pair (st : Store) (e₁ e₂ : Eff) :
    runEffs st [e₁, e₂] = applyEff (applyEff st e₁) e₂ := rfl

/-- Exhaustive shape analysis of one dispatch pass: the trace is either
empty (silent no-op), a persisted-then-broadcast new message, an
authorized edit, or an authorized delete. -/
lemma dispatch_shapes (parseId : ParseId) (senderId senderName : String)
    (now freshId : Nat) (insertOk : Bool) (st : Store) (r : RawFrame) :
    dispatch parseId senderId senderName now freshId insertOk st r = [] ∨
    (∃ f, r = .decoded f ∧ f.ftype.getD "message" = "message" ∧
      f.message.getD "" ≠ "" ∧ insertOk = true ∧
      dispatch parseId senderId senderName now freshId insertOk st r =
        [.insertMsg freshId
          { senderId := senderId, senderName := senderName,
            content := f.message.getD "", roomId := "global",
            messageType := "text", timestamp := now, isDeleted := false,
            replyToId := f.replyToId, replyToUsername := f.replyToUsername,
            replyToContent := f.replyToContent },
         .broadcastEv (.message freshId senderName senderId
           (f.message.getD "") now f.replyToId f.replyToUsername
           f.replyToContent)]) ∨
    (∃ f i msg nc, r = .decoded f ∧ f.ftype.getD "message" = "edit" ∧
      storeGet st i = some msg ∧ msg.senderId = senderId ∧
      msg.isDeleted = false ∧
      dispatch parseId senderId senderName now freshId insertOk st r =
        [.saveMsg i { msg with content := nc },
         .broadcastEv (.edit i nc)]) ∨
    (∃ f i msg, r = .decoded f ∧ f.ftype.getD "message" = "delete" ∧
      storeGet st i = some msg ∧ msg.senderId = senderId ∧
      dispatch parseId senderId senderName now freshId insertOk st r =
        [.saveMsg i { msg with isDeleted := true },
         .broadcastEv (.delete i)]) := by
  rcases r with _ | f
  · exact Or.inl rfl
  · by_cases h1 : f.ftype.getD "message" = "message"
    · by_cases h2 : f.message.getD "" = ""
      · exact Or.inl (by simp [dispatch, h1, h2])
      · cases insertOk with
        | false => exact Or.inl (by simp [dispatch, h1, h2])
        | true =>
            refine Or.inr (Or.inl ⟨f, rfl, h1, h2, rfl, ?_⟩)
            simp [dispatch, h1, h2]
    · by_cases h4 : f.ftype.getD "message" = "edit"
      · cases hmid : pyStr f.msgId with
        | none => exact Or.inl (by simp [dispatch, h1, h4, hmid])
        | some rawId =>
            cases hmsg : pyStr f.message with
            | none => exact Or.inl (by simp [dispatch, h1, h4, hmid, hmsg])
            | some nc =>
                cases hp : parseId rawId with
                | none =>
                    exact Or.inl (by simp [dispatch, h1, h4, hmid, hmsg, hp])
                | some i =>
                    cases hg : storeGet st i with
                    | none =>
                        exact Or.inl
                          (by simp [dispatch, h1, h4, hmid, hmsg, hp, hg])
                    | some msg =>
                        by_cases hc :
                          msg.senderId = senderId ∧ msg.isDeleted = false
                        · refine Or.inr (Or.inr (Or.inl
                            ⟨f, i, msg, nc, rfl, h4, hg, hc.1, hc.2, ?_⟩))
                          simp [dispatch, h1, h4, hmid, hmsg, hp, hg, hc.1,
                            hc.2]
                        · exact Or.inl (by
                            simp only [dispatch, h1, h4, hmid, hmsg, hp, hg,
                              if_neg hc]
                            simp [h1, h4])
      · by_cases h5 : f.ftype.getD "message" = "delete"
        · cases hmid : pyStr f.msgId with
          | none => exact Or.inl (by simp [dispatch, h1, h4, h5, hmid])
          | some rawId =>
              cases hp : parseId rawId with
              | none =>
                  exact Or.inl (by simp [dispatch, h1, h4, h5, hmid, hp])
              | some i =>
                  cases hg : storeGet st i with
                  | none =>
                      exact Or.inl
                        (by simp [dispatch, h1, h4, h5, hmid, hp, hg])
                  | some msg =>
                      by_cases hc : msg.senderId = senderId
                      · refine Or.inr (Or.inr (Or.inr
                          ⟨f, i, msg, rfl, h5, hg, hc, ?_⟩))
                        simp [dispatch, h1, h4, h5, hmid, hp, hg, hc]
                      · exact Or.inl (by
                          simp [dispatch, h1, h4, h5, hmid, hp, hg, hc])
        · exact Or.inl (by simp [dispatch, h1, h4, h5])

end GlobalChat

namespace GlobalChat

/-- C2: `ConnectionManager.broadcast` attempts the send on every
connection registered at call time, each exactly once and in order,
regardless of which sends fail (a failure is caught and the loop
continues); afterwards exactly the connections whose send failed have been
unregistered, and the connections whose send succeeded remain registered
in order.  The registry is assumed duplicate-free, which holds for every
reachable registry state. -/
theorem broadcast_sends_all_prunes_failed (ok : Conn → Bool) (s : List Conn)
    (h : s.Nodup) :
    (broadcast ok s).1 = s ∧
    (∀ c ∈ s, (broadcast ok s).1.count c = 1) ∧
    (broadcast ok s).2 = s.filter (fun c => ok c) := by
  refine ⟨broadcast_fst ok s, ?_, broadcast_registry_eq_filter ok s h⟩
  intro c hc
  rw [broadcast_fst ok s]
  exact List.count_eq_one_of_mem h hc

/-- Witness for C2: a three-connection registry where the middle send
fails; all three sends are attempted and only the failed connection is
pruned. -/
theorem broadcast_sends_all_prunes_failed_witness :
    (broadcast (fun c => c.cid ≠ 2) [⟨1⟩, ⟨2⟩, ⟨3⟩]).1 = [⟨1⟩, ⟨2⟩, ⟨3⟩] ∧
    (∀ c ∈ [(⟨1⟩ : Conn), ⟨2⟩, ⟨3⟩],
      (broadcast (fun c => c.cid ≠ 2) [⟨1⟩, ⟨2⟩, ⟨3⟩]).1.count c = 1) ∧
    (broadcast (fun c => c.cid ≠ 2) [⟨1⟩, ⟨2⟩, ⟨3⟩]).2 = [⟨1⟩, ⟨3⟩] :=
  broadcast_sends_all_prunes_failed (fun c => c.cid ≠ 2) [⟨1⟩, ⟨2⟩, ⟨3⟩]
    (by decide)

/-- C3: every admission failure closes the connection with the
distinguishing reason for its failure mode — `authRequired` when no
credential is supplied, `invalidToken` when JWT resolution fails (decode
error or missing `sub` claim), `userNotFound` when the resolved email has
no user document — and a rejected connection is never registered, so a
subsequent broadcast over the unchanged registry never attempts a send to
it. -/
theorem rejection_distinguishes_and_never_registers (decode : JwtDecode)
    (db : List UserDoc) (token : Option String) (s : List Conn) (w : Conn)
    (ok : Conn → Bool) :
    (pyStr token = none → admission decode db token = .rejected .authRequired) ∧
    (∀ t, pyStr token = some t → (decode t = none ∨ decode t = some none) →
      admission decode db token = .rejected .invalidToken) ∧
    (∀ t email, pyStr token = some t → decode t = some (some email) →
      findUser db email = none →
      admission decode db token = .rejected .userNotFound) ∧
    (∀ r, admission decode db token = .rejected r →
      admissionRegistry (admission decode db token) s w = s ∧
      (w ∉ s → w ∉ (broadcast ok s).1)) := by
  refine ⟨?_, ?_, ?_, ?_⟩
  · intro h
    simp [admission, h]
  · intro t ht hdec
    rcases hdec with hdec | hdec <;> simp [admission, ht, hdec]
  · intro t email ht hdec hdb
    simp [admission, ht, hdec, hdb]
  · intro r hr
    constructor
    · rw [hr]
      rfl
    · intro hw
      rw [broadcast_fst]
      exact hw

/-- Witness for C3: each of the three failure modes exercised at a
concrete input, plus non-registration and broadcast non-delivery for the
rejected connection. -/
theorem rejection_distinguishes_witness :
    admission (fun _ => none) [] none = .rejected .authRequired ∧
    admission (fun _ => none) [] (some "t") = .rejected .invalidToken ∧
    admission (fun _ => some (some "a@b")) [] (some "t") =
      .rejected .userNotFound ∧
    admissionRegistry (admission (fun _ => none) [] none) [⟨1⟩] ⟨2⟩ = [⟨1⟩] ∧
    (⟨2⟩ : Conn) ∉ (broadcast (fun _ => true) [⟨1⟩]).1 := by
  have h1 := rejection_distinguishes_and_never_registers (fun _ => none) []
    none [⟨1⟩] ⟨2⟩ (fun _ => true)
  have h2 := rejection_distinguishes_and_never_registers (fun _ => none) []
    (some "t") [] ⟨1⟩ (fun _ => true)
  have h3 := rejection_distinguishes_and_never_registers
    (fun _ => some (some "a@b")) [] (some "t") [] ⟨1⟩ (fun _ => true)
  have e1 := h1.1 rfl
  have e2 := h2.2.1 "t" rfl (Or.inl rfl)
  have e3 := h3.2.2.1 "t" "a@b" rfl rfl rfl
  have hreg := h1.2.2.2 _ e1
  exact ⟨e1, e2, e3, hreg.1, hreg.2 (by decide)⟩

/-- C4: an `edit` event carrying a message id and new non-empty content
updates the stored content and fans out an edit frame exactly when the
referenced message exists, is not soft-deleted, and is owned by the
session identity; in every other case the pass is a silent no-op: the
store is unchanged, nothing is handed to `manager.broadcast`, and (as the
effect trace shows — `Eff` has no sender-directed send) no error frame is
returned to the sender. -/
theorem edit_owner_updates_otherwise_silent_noop (parseId : ParseId)
    (senderId senderName : String) (now freshId : Nat) (insertOk : Bool)
    (st : Store) (f : ClientFrame)
    (htype : f.ftype.getD "message" = "edit")
    (rawId newContent : String)
    (hid : pyStr f.msgId = some rawId)
    (hmsg : pyStr f.message = some newContent)
    (i : MsgId) (hparse : parseId rawId = some i) :
    (∀ msg, storeGet st i = some msg → msg.senderId = senderId →
      msg.isDeleted = false →
      dispatch parseId senderId senderName now freshId insertOk st
          (.decoded f) =
        [.saveMsg i { msg with content := newContent },
         .broadcastEv (.edit i newContent)] ∧
      storeGet (runEffs st (dispatch parseId senderId senderName now freshId
        insertOk st (.decoded f))) i =
        some { msg with content := newContent } ∧
      broadcastsOf (dispatch parseId senderId senderName now freshId
        insertOk st (.decoded f)) = [.edit i newContent]) ∧
    ((storeGet st i = none ∨
      (∃ msg, storeGet st i = some msg ∧
        (msg.senderId ≠ senderId ∨ msg.isDeleted = true))) →
      dispatch parseId senderId senderName now freshId insertOk st
        (.decoded f) = [] ∧
      runEffs st (dispatch parseId senderId senderName now freshId insertOk
        st (.decoded f)) = st ∧
      broadcastsOf (dispatch parseId senderId senderName now freshId
        insertOk st (.decoded f)) = []) := by
  constructor
  · intro msg hget hsender hdel
    have hd : dispatch parseId senderId senderName now freshId insertOk st
        (.decoded f) =
        [.saveMsg i { msg with content := newContent },
         .broadcastEv (.edit i newContent)] := by
      simp [dispatch, htype, hid, hmsg, hparse, hget, hsender, hdel]
    refine ⟨hd, ?_, ?_⟩
    · rw [hd]
      show storeGet (storeSave st i _) i = _
      rw [storeGet_save]
      simp [hget]
    · rw [hd]
      rfl
  · intro hcase
    have hd : dispatch parseId senderId senderName now freshId insertOk st
        (.decoded f) = [] := by
      rcases hcase with hnone | ⟨msg, hget, hbad⟩
      · simp [dispatch, htype, hid, hmsg, hparse, hnone]
      · rcases hbad with h | h <;>
          simp [dispatch, htype, hid, hmsg, hparse, hget, h]
    refine ⟨hd, ?_, ?_⟩ <;> rw [hd] <;> rfl

/-- Witness for C4: the sender edits their own live message (content
updated, edit frame fanned out), and a different session's edit of the
same message is a silent no-op. -/
theorem edit_owner_updates_witness :
    dispatch parseZero "alice@x" "Alice" 9 1 true [(0, msgA)]
        (.decoded editFrame) =
      [.saveMsg 0 { msgA with content := "hi there" },
       .broadcastEv (.edit 0 "hi there")] ∧
    storeGet (runEffs [(0, msgA)] (dispatch parseZero "alice@x" "Alice" 9 1
      true [(0, msgA)] (.decoded editFrame))) 0 =
      some { msgA with content := "hi there" } ∧
    dispatch parseZero "bob@x" "Bob" 9 1 true [(0, msgA)]
      (.decoded editFrame) = [] ∧
    runEffs [(0, msgA)] (dispatch parseZero "bob@x" "Bob" 9 1 true
      [(0, msgA)] (.decoded editFrame)) = [(0, msgA)] := by
  have ha := edit_owner_updates_otherwise_silent_noop parseZero "alice@x"
    "Alice" 9 1 true [(0, msgA)] editFrame rfl "0" "hi there" rfl rfl 0 rfl
  have hb := edit_owner_updates_otherwise_silent_noop parseZero "bob@x"
    "Bob" 9 1 true [(0, msgA)] editFrame rfl "0" "hi there" rfl rfl 0 rfl
  have ha1 := ha.1 msgA rfl rfl rfl
  have hb1 := hb.2 (Or.inr ⟨msgA, rfl, Or.inl (by decide)⟩)
  exact ⟨ha1.1, ha1.2.1, hb1.1, hb1.2.1⟩

/-- C5: for a `message` event, persistence gates the broadcast: if
`new_msg.insert()` fails, the pass produces no effects at all — no store
write and no call to `manager.broadcast`, so no connection receives a
frame; and any broadcast effect in the trace is strictly preceded by the
insert of the record it announces. -/
theorem message_persistence_gates_broadcast (parseId : ParseId)
    (senderId senderName : String) (now freshId : Nat) (insertOk : Bool)
    (st : Store) (f : ClientFrame)
    (htype : f.ftype.getD "message" = "message") :
    (insertOk = false →
      dispatch parseId senderId senderName now freshId insertOk st
        (.decoded f) = [] ∧
      runEffs st (dispatch parseId senderId senderName now freshId insertOk
        st (.decoded f)) = st ∧
      broadcastsOf (dispatch parseId senderId senderName now freshId
        insertOk st (.decoded f)) = []) ∧
    (∀ (k : Nat) (e : OutEvent),
      (dispatch parseId senderId senderName now freshId insertOk st
        (.decoded f))[k]? = some (Eff.broadcastEv e) →
      insertOk = true ∧
      ∃ (j : Nat) (m : Msg), j < k ∧
        (dispatch parseId senderId senderName now freshId insertOk st
          (.decoded f))[j]? = some (Eff.insertMsg freshId m)) := by
  constructor
  · intro hins
    subst hins
    have hd : dispatch parseId senderId senderName now freshId false st
        (.decoded f) = [] := by
      simp [dispatch, htype]
    exact ⟨hd, by rw [hd]; rfl, by rw [hd]; rfl⟩
  · intro k e hk
    rcases dispatch_shapes parseId senderId senderName now freshId insertOk
        st (.decoded f) with
      h | ⟨f', hf, ht, hc, hins, hd⟩ | ⟨f', i, msg, nc, hf, ht, _⟩ |
      ⟨f', i, msg, hf, ht, _⟩
    · rw [h] at hk
      simp at hk
    · injection hf with hff
      subst hff
      refine ⟨hins, ?_⟩
      rw [hd] at hk
      cases k with
      | zero => simp at hk
      | succ k =>
          exact ⟨0,
            { senderId := senderId, senderName := senderName,
              content := f.message.getD "", roomId := "global",
              messageType := "text", timestamp := now, isDeleted := false,
              replyToId := f.replyToId,
              replyToUsername := f.replyToUsername,
              replyToContent := f.replyToContent },
            Nat.succ_pos k, by rw [hd]; rfl⟩
    · injection hf with hff
      subst hff
      rw [htype] at ht
      exact absurd ht (by decide)
    · injection hf with hff
      subst hff
      rw [htype] at ht
      exact absurd ht (by decide)

/-- Witness for C5: with a failing insert the pass is empty; with a
succeeding insert the broadcast at index 1 is preceded by the insert at
index 0. -/
theorem message_persistence_gates_broadcast_witness :
    dispatch parseZero "alice@x" "Alice" 9 1 false [] (.decoded msgFrame) =
      [] ∧
    broadcastsOf (dispatch parseZero "alice@x" "Alice" 9 1 false []
      (.decoded msgFrame)) = [] ∧
    ((true : Bool) = true ∧
      ∃ j m, j < 1 ∧
        (dispatch parseZero "alice@x" "Alice" 9 1 true []
          (.decoded msgFrame))[j]? = some (Eff.insertMsg 1 m)) := by
  have hfail := (message_persistence_gates_broadcast parseZero "alice@x"
    "Alice" 9 1 false [] msgFrame rfl).1 rfl
  have hok := (message_persistence_gates_broadcast parseZero "alice@x"
    "Alice" 9 1 true [] msgFrame rfl).2 1
    (.message 1 "Alice" "alice@x" "hi" 9 none none none) (by rfl)
  exact ⟨hfail.1, hfail.2.2, hok⟩

/-- C6: dispatch ignores any identity-like field the client supplies: the
effect trace is identical for two frames differing only in the
client-supplied `username` / `sender_id` fields, every record written to
the store carries the admission-time `sender_id` and display name, and
every broadcast `message` frame carries them too. -/
theorem identity_forced_from_session (parseId : ParseId)
    (senderId senderName : String) (now freshId : Nat) (insertOk : Bool)
    (st : Store) (f : ClientFrame) (u v : Option String) :
    dispatch parseId senderId senderName now freshId insertOk st
        (.decoded f) =
      dispatch parseId senderId senderName now freshId insertOk st
        (.decoded { f with claimedUsername := u, claimedSenderId := v }) ∧
    (∀ i m, Eff.insertMsg i m ∈ dispatch parseId senderId senderName now
        freshId insertOk st (.decoded f) →
      m.senderId = senderId ∧ m.senderName = senderName) ∧
    (∀ i un sid c ts r1 r2 r3,
      Eff.broadcastEv (.message i un sid c ts r1 r2 r3) ∈
        dispatch parseId senderId senderName now freshId insertOk st
          (.decoded f) →
      un = senderName ∧ sid = senderId) := by
  refine ⟨?_, ?_, ?_⟩
  · cases f
    rfl
  · intro i m hm
    rcases dispatch_shapes parseId senderId senderName now freshId insertOk
        st (.decoded f) with
      h | ⟨f', hf, ht, hc, hins, hd⟩ | ⟨f', i', msg, nc, hf, ht, hg, hs,
        hdel, hd⟩ | ⟨f', i', msg, hf, ht, hg, hs, hd⟩
    · rw [h] at hm
      simp at hm
    · rw [hd] at hm
      simp only [List.mem_cons, List.mem_singleton, List.not_mem_nil,
        or_false] at hm
      rcases hm with hm | hm
      · obtain ⟨h1, h2⟩ := Eff.insertMsg.inj hm
        subst h2
        exact ⟨rfl, rfl⟩
      · exact absurd hm (by simp)
    · rw [hd] at hm
      simp at hm
    · rw [hd] at hm
      simp at hm
  · intro i un sid c ts r1 r2 r3 hm
    rcases dispatch_shapes parseId senderId senderName now freshId insertOk
        st (.decoded f) with
      h | ⟨f', hf, ht, hc, hins, hd⟩ | ⟨f', i', msg, nc, hf, ht, hg, hs,
        hdel, hd⟩ | ⟨f', i', msg, hf, ht, hg, hs, hd⟩
    · rw [h] at hm
      simp at hm
    · rw [hd] at hm
      simp only [List.mem_cons, List.mem_singleton, List.not_mem_nil,
        or_false] at hm
      rcases hm with hm | hm
      · exact absurd hm (by simp)
      · have ho := Eff.broadcastEv.inj hm
        obtain ⟨_, h2, h3, _⟩ := OutEvent.message.inj ho
        exact ⟨h2, h3⟩
    · rw [hd] at hm
      simp at hm
    · rw [hd] at hm
      simp at hm

/-- Witness for C6: an impersonation attempt (client-supplied `username`
and `sender_id`) produces the identical trace, and the inserted record
carries the session identity. -/
theorem identity_forced_from_session_witness :
    dispatch parseZero "alice@x" "Alice" 9 1 true [] (.decoded msgFrame) =
      dispatch parseZero "alice@x" "Alice" 9 1 true []
        (.decoded { msgFrame with
                    claimedUsername := some "Mallory"
                    claimedSenderId := some "mallory@x" }) ∧
    ({ senderId := "alice@x", senderName := "Alice", content := "hi",
       roomId := "global", messageType := "text", timestamp := 9,
       isDeleted := false, replyToId := none, replyToUsername := none,
       replyToContent := none } : Msg).senderId = "alice@x" ∧
    ({ senderId := "alice@x", senderName := "Alice", content := "hi",
       roomId := "global", messageType := "text", timestamp := 9,
       isDeleted := false, replyToId := none, replyToUsername := none,
       replyToContent := none } : Msg).senderName = "Alice" := by
  have h := identity_forced_from_session parseZero "alice@x" "Alice" 9 1
    true [] msgFrame (some "Mallory") (some "mallory@x")
  have hm := h.2.1 1
    { senderId := "alice@x", senderName := "Alice", content := "hi",
      roomId := "global", messageType := "text", timestamp := 9,
      isDeleted := false, replyToId := none, replyToUsername := none,
      replyToContent := none } (by simp [dispatch, msgFrame])
  exact ⟨h.1, hm.1, hm.2⟩

/-- C7: an undecodable frame, or a decoded frame whose type discriminator
is none of `message` / `edit` / `delete`, is silently discarded: the pass
produces no effects (no store write, no broadcast, and — since `Eff` has
no sender-directed send — no frame back to the sender), the loop continues,
a frame never closes the connection, and the registry is untouched. -/
theorem malformed_or_unknown_input_discarded (parseId : ParseId)
    (senderId senderName : String) (now freshId : Nat) (insertOk : Bool)
    (st : Store) (s : List Conn) (w : Conn) :
    handleIncoming parseId senderId senderName now freshId insertOk st
      (.frame .undecodable) = .continueLoop [] ∧
    (∀ f : ClientFrame, f.ftype.getD "message" ≠ "message" →
      f.ftype.getD "message" ≠ "edit" →
      f.ftype.getD "message" ≠ "delete" →
      handleIncoming parseId senderId senderName now freshId insertOk st
        (.frame (.decoded f)) = .continueLoop []) ∧
    (∀ r : RawFrame, handleIncoming parseId senderId senderName now freshId
      insertOk st (.frame r) ≠ .closed) ∧
    runEffs st [] = st ∧ broadcastsOf [] = [] ∧
    stepRegistry (.continueLoop []) s w = s := by
  refine ⟨rfl, ?_, ?_, rfl, rfl, rfl⟩
  · intro f h1 h2 h3
    simp [handleIncoming, dispatch, h1, h2, h3]
  · intro r
    simp [handleIncoming]

/-- Witness for C7: a frame with unknown type `ping` is discarded and does
not close the connection. -/
theorem malformed_or_unknown_input_discarded_witness :
    handleIncoming parseZero "alice@x" "Alice" 9 1 true [(0, msgA)]
      (.frame (.decoded pingFrame)) = .continueLoop [] ∧
    handleIncoming parseZero "alice@x" "Alice" 9 1 true [(0, msgA)]
      (.frame .undecodable) = .continueLoop [] ∧
    handleIncoming parseZero "alice@x" "Alice" 9 1 true [(0, msgA)]
      (.frame (.decoded pingFrame)) ≠ .closed := by
  have h := malformed_or_unknown_input_discarded parseZero "alice@x"
    "Alice" 9 1 true [(0, msgA)] [] ⟨1⟩
  exact ⟨h.2.1 pingFrame (by decide) (by decide) (by decide), h.1,
    h.2.2.1 (.decoded pingFrame)⟩

/-- C8: `ConnectionManager.disconnect` is idempotent on every reachable
registry state (each live handle is registered at most once), removing an
absent connection is a no-op on any state, and both exits of the receive
loop (`WebSocketDisconnect` and any other transport error) transition to
Closed and unregister the connection, so a double invocation from the
error path and a broadcast-triggered prune is harmless. -/
theorem unregister_idempotent_and_closed_unregisters (s : List Conn)
    (w : Conn) (parseId : ParseId) (senderId senderName : String)
    (now freshId : Nat) (insertOk : Bool) (st : Store) :
    (ReachableReg s → disconnect (disconnect s w) w = disconnect s w) ∧
    (w ∉ s → disconnect s w = s) ∧
    handleIncoming parseId senderId senderName now freshId insertOk st
      .disconnected = .closed ∧
    handleIncoming parseId senderId senderName now freshId insertOk st
      .transportError = .closed ∧
    stepRegistry .closed s w = disconnect s w := by
  refine ⟨?_, fun h => disconnect_of_not_mem h, rfl, rfl, rfl⟩
  intro hreach
  by_cases hw : w ∈ s
  · have h1 : disconnect s w = s.erase w := if_pos hw
    rw [h1, disconnect_of_not_mem hreach.nodup.not_mem_erase]
  · rw [disconnect_of_not_mem hw]
    exact disconnect_of_not_mem hw

/-- Witness for C8: a reachable two-connection registry; removing a
registered connection twice equals removing it once, removing an absent
connection changes nothing, and a closed loop unregisters. -/
theorem unregister_idempotent_witness :
    disconnect (disconnect [⟨1⟩, ⟨2⟩] ⟨1⟩) ⟨1⟩ =
      disconnect [⟨1⟩, ⟨2⟩] ⟨1⟩ ∧
    disconnect [⟨1⟩, ⟨2⟩] ⟨3⟩ = [⟨1⟩, ⟨2⟩] ∧
    handleIncoming parseZero "alice@x" "Alice" 0 0 true [] .disconnected =
      .closed ∧
    stepRegistry .closed [⟨1⟩, ⟨2⟩] ⟨1⟩ = disconnect [⟨1⟩, ⟨2⟩] ⟨1⟩ := by
  have hreach : ReachableReg [⟨1⟩, ⟨2⟩] :=
    .register (.register .empty (by decide)) (by decide)
  have h1 := unregister_idempotent_and_closed_unregisters [⟨1⟩, ⟨2⟩] ⟨1⟩
    parseZero "alice@x" "Alice" 0 0 true []
  have h3 := unregister_idempotent_and_closed_unregisters [⟨1⟩, ⟨2⟩] ⟨3⟩
    parseZero "alice@x" "Alice" 0 0 true []
  exact ⟨h1.1 hreach, h3.2.1 (by decide), h1.2.2.1, h1.2.2.2.2⟩

/-- C9: the `edit` pass can change only the `content` field of its target
message and the `delete` pass only the `is_deleted` flag of its target:
after either pass, every record previously in the store is still present
with its reply snapshot (`reply_to_id`, `reply_to_username`,
`reply_to_content`) — and every other field outside the mutated one —
unchanged.  In particular a reply snapshot on message B referencing
message A survives any edit or delete of A. -/
theorem edit_delete_mutate_only_target_field (parseId : ParseId)
    (senderId senderName : String) (now freshId : Nat) (insertOk : Bool)
    (st : Store) (f : ClientFrame) :
    (f.ftype.getD "message" = "edit" →
      ∀ (j : MsgId) (m0 : Msg), storeGet st j = some m0 →
        ∃ m' : Msg,
          storeGet (runEffs st (dispatch parseId senderId senderName now
            freshId insertOk st (.decoded f))) j = some m' ∧
          m'.senderId = m0.senderId ∧ m'.senderName = m0.senderName ∧
          m'.roomId = m0.roomId ∧ m'.messageType = m0.messageType ∧
          m'.timestamp = m0.timestamp ∧ m'.isDeleted = m0.isDeleted ∧
          m'.replyToId = m0.replyToId ∧
          m'.replyToUsername = m0.replyToUsername ∧
          m'.replyToContent = m0.replyToContent) ∧
    (f.ftype.getD "message" = "delete" →
      ∀ (j : MsgId) (m0 : Msg), storeGet st j = some m0 →
        ∃ m' : Msg,
          storeGet (runEffs st (dispatch parseId senderId senderName now
            freshId insertOk st (.decoded f))) j = some m' ∧
          m'.senderId = m0.senderId ∧ m'.senderName = m0.senderName ∧
          m'.content = m0.content ∧ m'.roomId = m0.roomId ∧
          m'.messageType = m0.messageType ∧ m'.timestamp = m0.timestamp ∧
          m'.replyToId = m0.replyToId ∧
          m'.replyToUsername = m0.replyToUsername ∧
          m'.replyToContent = m0.replyToContent) := by
  constructor
  · intro htype j m0 h0
    rcases dispatch_shapes parseId senderId senderName now freshId insertOk
        st (.decoded f) with
      h | ⟨f', hf, ht, hc, hins, hd⟩ | ⟨f', i, msg, nc, hf, ht, hg, hs,
        hdel, hd⟩ | ⟨f', i, msg, hf, ht, hg, hs, hd⟩
    · refine ⟨m0, ?_, rfl, rfl, rfl, rfl, rfl, rfl, rfl, rfl, rfl⟩
      rw [h]
      exact h0
    · injection hf with hff
      subst hff
      rw [htype] at ht
      exact absurd ht (by decide)
    · rw [hd]
      simp only [runEffs, List.foldl, applyEff]
      rw [storeGet_save]
      by_cases hj : j = i
      · subst hj
        rw [h0] at hg
        injection hg with hg
        subst hg
        refine ⟨{ m0 with content := nc }, ?_, rfl, rfl, rfl, rfl, rfl,
          rfl, rfl, rfl, rfl⟩
        rw [if_pos rfl, h0]
        rfl
      · rw [if_neg hj]
        exact ⟨m0, h0, rfl, rfl, rfl, rfl, rfl, rfl, rfl, rfl, rfl⟩
    · injection hf with hff
      subst hff
      rw [htype] at ht
      exact absurd ht (by decide)
  · intro htype j m0 h0
    rcases dispatch_shapes parseId senderId senderName now freshId insertOk
        st (.decoded f) with
      h | ⟨f', hf, ht, hc, hins, hd⟩ | ⟨f', i, msg, nc, hf, ht, hg, hs,
        hdel, hd⟩ | ⟨f', i, msg, hf, ht, hg, hs, hd⟩
    · refine ⟨m0, ?_, rfl, rfl, rfl, rfl, rfl, rfl, rfl, rfl, rfl⟩
      rw [h]
      exact h0
    · injection hf with hff
      subst hff
      rw [htype] at ht
      exact absurd ht (by decide)
    · injection hf with hff
      subst hff
      rw [htype] at ht
      exact absurd ht (by decide)
    · rw [hd]
      simp only [runEffs, List.foldl, applyEff]
      rw [storeGet_save]
      by_cases hj : j = i
      · subst hj
        rw [h0] at hg
        injection hg with hg
        subst hg
        refine ⟨{ m0 with isDeleted := true }, ?_, rfl, rfl, rfl, rfl, rfl,
          rfl, rfl, rfl, rfl⟩
        rw [if_pos rfl, h0]
        rfl
      · rw [if_neg hj]
        exact ⟨m0, h0, rfl, rfl, rfl, rfl, rfl, rfl, rfl, rfl, rfl⟩

/-- Witness for C9: the reply snapshot on `msgB` (replying to `msgA`,
id 0) is still `"hello"` after the sender edits `msgA`. -/
theorem edit_preserves_reply_snapshot_witness :
    (storeGet (runEffs [(0, msgA), (1, msgB)] (dispatch parseZero
        "alice@x" "Alice" 9 2 true [(0, msgA), (1, msgB)]
        (.decoded editFrame))) 1).map Msg.replyToContent =
      some (some "hello") := by
  obtain ⟨m', hm', hfields⟩ :=
    (edit_delete_mutate_only_target_field parseZero "alice@x" "Alice" 9 2
      true [(0, msgA), (1, msgB)] editFrame).1 rfl 1 msgB rfl
  rw [hm']
  have hrc := hfields.2.2.2.2.2.2.2.2
  show some (Msg.replyToContent m') = some (some "hello")
  rw [hrc]
  rfl

/-- C10: a `delete` event from the owner is not guarded by `is_deleted`
(`main.py` line 189 checks only existence and ownership): deleting an
already-deleted message rewrites the record unchanged (`is_deleted` stays
true, no field changes) yet hands a second `{type: delete, id}` payload to
`manager.broadcast`, which attempts every registered connection. -/
theorem repeated_delete_rebroadcasts (parseId : ParseId)
    (senderId senderName : String) (now freshId : Nat) (insertOk : Bool)
    (st : Store) (f : ClientFrame)
    (htype : f.ftype.getD "message" = "delete")
    (rawId : String) (hid : pyStr f.msgId = some rawId)
    (i : MsgId) (hparse : parseId rawId = some i)
    (msg : Msg) (hget : storeGet st i = some msg)
    (hsender : msg.senderId = senderId) (hdel : msg.isDeleted = true) :
    dispatch parseId senderId senderName now freshId insertOk st
        (.decoded f) =
      [.saveMsg i msg, .broadcastEv (.delete i)] ∧
    (∀ j : MsgId, storeGet (runEffs st (dispatch parseId senderId
      senderName now freshId insertOk st (.decoded f))) j =
      storeGet st j) ∧
    broadcastsOf (dispatch parseId senderId senderName now freshId insertOk
      st (.decoded f)) = [.delete i] ∧
    (∀ (ok : Conn → Bool) (conns : List Conn),
      (broadcast ok conns).1 = conns) := by
  have hmm : { msg with isDeleted := true } = msg := by
    cases msg
    simp_all
  have hd0 : dispatch parseId senderId senderName now freshId insertOk st
      (.decoded f) =
      [.saveMsg i { msg with isDeleted := true },
       .broadcastEv (.delete i)] := by
    simp [dispatch, htype, hid, hparse, hget, hsender]
  have hd : dispatch parseId senderId senderName now freshId insertOk st
      (.decoded f) = [.saveMsg i msg, .broadcastEv (.delete i)] := by
    rw [hd0, hmm]
  refine ⟨hd, ?_, by rw [hd]; rfl, fun ok conns => broadcast_fst ok conns⟩
  intro j
  rw [hd]
  simp only [runEffs, List.foldl, applyEff]
  rw [storeGet_save]
  by_cases hj : j = i
  · subst hj
    rw [if_pos rfl, hget]
    rfl
  · rw [if_neg hj]

/-- Witness for C10: re-deleting the already-deleted `msgD` leaves the
store unchanged but emits another delete payload. -/
theorem repeated_delete_rebroadcasts_witness :
    dispatch parseZero "alice@x" "Alice" 9 1 true [(0, msgD)]
        (.decoded deleteFrame) =
      [.saveMsg 0 msgD, .broadcastEv (.delete 0)] ∧
    storeGet (runEffs [(0, msgD)] (dispatch parseZero "alice@x" "Alice" 9 1
      true [(0, msgD)] (.decoded deleteFrame))) 0 =
      storeGet [(0, msgD)] 0 ∧
    broadcastsOf (dispatch parseZero "alice@x" "Alice" 9 1 true [(0, msgD)]
      (.decoded deleteFrame)) = [.delete 0] := by
  have h := repeated_delete_rebroadcasts parseZero "alice@x" "Alice" 9 1
    true [(0, msgD)] deleteFrame rfl "0" rfl 0 rfl msgD rfl rfl rfl
  exact ⟨h.1, h.2.1 0, h.2.2.1⟩

/-- C1 (code bug): `websocket_chat_endpoint` never reads `user.disabled`
(`main.py` lines 96-107), so a valid credential resolving to a disabled
user is admitted and the connection is registered, contradicting the
spec's requirement (and the HTTP resolver `get_current_user`,
`src/auth/router.py` lines 60-62, which rejects disabled users identically
to invalid credentials). -/
theorem disabled_user_admitted_and_registered :
    (findUser dbWithDisabledUser "dis@example.com").map UserDoc.disabled =
      some true ∧
    admission decodeTok dbWithDisabledUser (some "tok") =
      .admitted "dis@example.com" "Dis" ∧
    admissionRegistry (admission decodeTok dbWithDisabledUser (some "tok"))
      [] ⟨7⟩ = [⟨7⟩] := by
  refine ⟨rfl, ?_, ?_⟩ <;> rfl

end GlobalChat
